/-
Verification of the CryptoWallet core: a shallow embedding of the
private-key lifecycle and transaction subsystem (SecurityManager in
src/utils/security.ts and WalletService in the wallet service module),
with theorems settling the specification's claims about it.

Strings handled at the byte level (the XOR cipher and base64 codec) are
embedded as lists of natural-number char codes; registry-level strings
are embedded as Lean strings.  JS `number` amounts are embedded as `Rat`.
-/
import Mathlib

namespace CryptoWallet

/-! ## Encryption Engine (SecurityManager.encryptPrivateKey / decryptPrivateKey)

`encryptPrivateKey` XORs each char code of the plaintext with the char code
of the hex encryption key at position `index % key.length`, then base64
encodes the result with `btoa`.  `decryptPrivateKey` applies `atob` and the
same XOR pass.  `btoa`/`atob` are the JS base64 primitives, embedded below
over byte lists (output is the list of ASCII codes of the base64 text,
61 being the code of the '=' pad). -/

/-- ASCII codes of the base64 alphabet A-Z, a-z, 0-9, +, / in order. -/
def b64alphabet : List Nat :=
  [65, 66, 67, 68, 69, 70, 71, 72, 73, 74, 75, 76, 77, 78, 79, 80, 81, 82,
   83, 84, 85, 86, 87, 88, 89, 90,
   97, 98, 99, 100, 101, 102, 103, 104, 105, 106, 107, 108, 109, 110, 111,
   112, 113, 114, 115, 116, 117, 118, 119, 120, 121, 122,
   48, 49, 50, 51, 52, 53, 54, 55, 56, 57, 43, 47]

/-- Sextet value (0..63) to the ASCII code of its base64 character. -/
def b64enc (s : Nat) : Nat := b64alphabet.getD s 0

/-- ASCII code of a base64 character back to its sextet value. -/
def b64dec (c : Nat) : Nat := b64alphabet.indexOf c

/-- JS `btoa` over a list of byte values: 3 bytes become 4 base64 chars,
with '=' (code 61) padding for a trailing group of 1 or 2 bytes. -/
def btoa : List Nat → List Nat
  | [] => []
  | [a] => [b64enc (a / 4), b64enc (a % 4 * 16), 61, 61]
  | [a, b] => [b64enc (a / 4), b64enc (a % 4 * 16 + b / 16), b64enc (b % 16 * 4), 61]
  | a :: b :: c :: rest =>
      b64enc (a / 4) :: b64enc (a % 4 * 16 + b / 16) ::
      b64enc (b % 16 * 4 + c / 64) :: b64enc (c % 64) :: btoa rest

/-- JS `atob` over the char codes of a base64 string: each group of 4 chars
yields 3 bytes, or fewer when '=' padding closes the group. -/
def atob : List Nat → List Nat
  | c1 :: c2 :: c3 :: c4 :: rest =>
      if c3 = 61 then
        [b64dec c1 * 4 + b64dec c2 / 16]
      else if c4 = 61 then
        [b64dec c1 * 4 + b64dec c2 / 16,
         b64dec c2 % 16 * 16 + b64dec c3 / 4]
      else
        (b64dec c1 * 4 + b64dec c2 / 16) ::
        (b64dec c2 % 16 * 16 + b64dec c3 / 4) ::
        (b64dec c3 % 4 * 64 + b64dec c4) :: atob rest
  | _ => []

/-- The XOR pass of `encryptPrivateKey`/`decryptPrivateKey`: char at position
`i` is XORed with the key char at position `i % key.length`, starting from
index `i`. -/
def xorFrom (key : List Nat) : Nat → List Nat → List Nat
  | _, [] => []
  | i, c :: rest => (c ^^^ key.getD (i % key.length) 0) :: xorFrom key (i + 1) rest

/-- The full XOR transform applied by the SecurityManager (index starts at 0). -/
def xorWithKey (key s : List Nat) : List Nat := xorFrom key 0 s

/-- `SecurityManager.encryptPrivateKey` with an initialized key:
XOR with the repeating key, then `btoa`. -/
def encryptPrivateKey (key privateKey : List Nat) : List Nat :=
  btoa (xorWithKey key privateKey)

/-- `SecurityManager.decryptPrivateKey` with an initialized key:
`atob`, then XOR with the repeating key. -/
def decryptPrivateKey (key encrypted : List Nat) : List Nat :=
  xorWithKey key (atob encrypted)

/-! ## Data model (src/types/index.ts)

`CryptoType` is a TS string enum ('ethereum' | 'bitcoin' | 'solana'); at
runtime its values are plain strings, so chains are embedded as `String`
and the three enum members as the constants below.  `Date` values are
embedded as `Nat` timestamps and `number` amounts as `Rat`. -/

def ethereumType : String := "ethereum"

def bitcoinType : String := "bitcoin"

def solanaType : String := "solana"

/-- The Wallet record of src/types/index.ts (`type` is the chain,
`privateKey` holds the encrypted blob). -/
structure Wallet where
  id : String
  userId : String
  name : String
  type : String
  address : String
  privateKey : String
  balance : Rat
  symbol : String
  decimals : Nat
  createdAt : Nat
  updatedAt : Nat
deriving DecidableEq, Repr

/-- Transaction type enum ('send' | 'receive' | 'swap'). -/
inductive TransactionType where
  | send
  | receive
  | swap
deriving DecidableEq, Repr

/-- Transaction status enum ('pending' | 'confirmed' | 'failed'). -/
inductive TransactionStatus where
  | pending
  | confirmed
  | failed
deriving DecidableEq, Repr

/-- The Transaction record of src/types/index.ts (fields the wallet service
populates). -/
structure Transaction where
  id : String
  walletId : String
  type : TransactionType
  amount : Rat
  fee : Rat
  fromAddress : String
  toAddress : String
  hash : String
  status : TransactionStatus
  timestamp : Nat
  gasUsed : Option Rat
  gasPrice : Option Rat
deriving DecidableEq, Repr

/-! ## The wallet registry (`WalletService.wallets : Map<string, Wallet>`)

A JS `Map` keyed by wallet id, embedded as an association list in insertion
order: `set` on an existing key replaces the entry in place, `set` on a new
key appends, `delete` removes, `values()` iterates in insertion order. -/

abbrev WalletState := List (String × Wallet)

/-- `Map.get`. -/
def mapGet : WalletState → String → Option Wallet
  | [], _ => none
  | (k', v') :: rest, k => if k' = k then some v' else mapGet rest k

/-- `Map.set`. -/
def mapSet : WalletState → String → Wallet → WalletState
  | [], k, v => [(k, v)]
  | (k', v') :: rest, k, v =>
      if k' = k then (k, v) :: rest else (k', v') :: mapSet rest k v

/-- `Map.delete` (the result state; the returned Bool is modelled separately). -/
def mapDelete (m : WalletState) (k : String) : WalletState :=
  m.filter fun p => p.1 ≠ k

/-- The key list of the registry. -/
def mapKeys (m : WalletState) : List String := m.map Prod.fst

/-- `Array.from(this.wallets.values())`. -/
def mapValues (m : WalletState) : List Wallet := m.map Prod.snd

/-- `WalletService.getWallet`. -/
def getWallet (m : WalletState) (walletId : String) : Option Wallet :=
  mapGet m walletId

/-- `WalletService.getWalletsByUserId`: values in insertion order filtered
by owner. -/
def getWalletsByUserId (m : WalletState) (userId : String) : List Wallet :=
  (mapValues m).filter fun w => w.userId = userId

/-- `WalletService.updateWallet`: bumps `updatedAt` and stores the given
wallet object under its own id, whatever its field values are. -/
def updateWallet (m : WalletState) (w : Wallet) (now : Nat) : WalletState :=
  mapSet m w.id { w with updatedAt := now }

/-- `WalletService.deleteWallet` (the resulting state). -/
def deleteWallet (m : WalletState) (walletId : String) : WalletState :=
  mapDelete m walletId

/-- `WalletService.getDecimals`. -/
def getDecimals (cryptoType : String) : Nat :=
  if cryptoType = ethereumType then 18
  else if cryptoType = bitcoinType then 8
  else if cryptoType = solanaType then 9
  else 18

/-- `NETWORKS[cryptoType].symbol` from src/constants/crypto.ts (only reached
for the three supported chains). -/
def networkSymbol (cryptoType : String) : String :=
  if cryptoType = ethereumType then "ETH"
  else if cryptoType = bitcoinType then "BTC"
  else if cryptoType = solanaType then "SOL"
  else ""

/-! ## WalletService.createWallet

Key generation (ethers / expo-crypto randomness / Solana keypair), the
encryption call's outcome and `Date.now()` are external effects, supplied
as a `CreateEnv` record of oracle values for the one call.  Every failure
thrown inside the `try` block (the `default:` throw for an unsupported
chain, or a failing `encryptPrivateKey`) is caught, logged and re-thrown as
the generic `'Failed to create wallet'`; the embedding keeps the caught
cause as data in the error value so theorems can name which failure
occurred. -/

/-- Causes caught and re-thrown by `createWallet`'s catch-all. -/
inductive CreateFailure where
  | unsupportedChain (chain : String)
  | encryptionError
deriving DecidableEq, Repr

deriving instance DecidableEq for Except

/-- Oracle values for one `createWallet` call: the freshly generated
per-chain key material, the outcome of `encryptPrivateKey`, and
`Date.now()`. -/
structure CreateEnv where
  ethAddress : String
  ethPrivKey : String
  btcEntropyHex : String
  solAddress : String
  solSecretB64 : String
  encryptResult : Except Unit String
  now : Nat
deriving DecidableEq, Repr

/-- The `switch (cryptoType)` key-generation step of `createWallet`:
`(address, privateKey)` for a supported chain, `none` for the `default:`
throw.  The Bitcoin branch builds `` `bc1${hex.substring(0, 40)}` `` from
the generated entropy. -/
def genKeyPair (env : CreateEnv) (cryptoType : String) : Option (String × String) :=
  if cryptoType = ethereumType then some (env.ethAddress, env.ethPrivKey)
  else if cryptoType = bitcoinType then
    some ("bc1" ++ env.btcEntropyHex.take 40, env.btcEntropyHex)
  else if cryptoType = solanaType then some (env.solAddress, env.solSecretB64)
  else none

/-- The Wallet record literal built by `createWallet`. -/
def newWallet (userId cryptoType name address encryptedPrivateKey : String)
    (now : Nat) : Wallet :=
  { id := cryptoType ++ "_" ++ toString now
    userId := userId
    name := name
    type := cryptoType
    address := address
    privateKey := encryptedPrivateKey
    balance := 0
    symbol := networkSymbol cryptoType
    decimals := getDecimals cryptoType
    createdAt := now
    updatedAt := now }

/-- `WalletService.createWallet userId cryptoType name`: generates chain
key material, encrypts the private key, and stores a fresh Wallet keyed by
`` `${cryptoType}_${Date.now()}` ``. -/
def createWallet (env : CreateEnv) (m : WalletState) (userId cryptoType name : String) :
    Except CreateFailure Wallet × WalletState :=
  match genKeyPair env cryptoType with
  | none => (.error (.unsupportedChain cryptoType), m)
  | some (address, _privateKey) =>
    match env.encryptResult with
    | .error _ => (.error .encryptionError, m)
    | .ok encryptedPrivateKey =>
      let wallet := newWallet userId cryptoType name address encryptedPrivateKey env.now
      (.ok wallet, mapSet m wallet.id wallet)

/-! ## WalletService.sendTransaction

The decryption outcome, the Ethereum provider round trip, the fabricated
Bitcoin/Solana hashes and `Date.now()` are oracle values in a `SendEnv`.
`sendTransaction` looks the wallet up (throwing `'Wallet not found'`
outside the `try`), decrypts the key, dispatches on `wallet.type`, and on
success builds a pending Transaction; any failure inside the `try` is
caught and re-thrown as `'Failed to send transaction'`, embedded as
`SendError.transferFailed` carrying the caught cause.  The registry is
never written: the state component of the result is the input state. -/

/-- Result of the Ethereum provider path (`sendEthereumTransaction`). -/
structure EthSendResult where
  hash : String
  gasUsed : Rat
  gasPrice : Rat
deriving DecidableEq, Repr

/-- Causes caught and re-thrown by `sendTransaction`'s catch-all. -/
inductive TxFailure where
  | decryptionError
  | unsupportedChain (chain : String)
  | networkError (msg : String)
deriving DecidableEq, Repr

/-- Errors surfaced by `sendTransaction`: the pre-`try` lookup failure, or
the catch-all wrapping a caught cause. -/
inductive SendError where
  | walletNotFound
  | transferFailed (cause : TxFailure)
deriving DecidableEq, Repr

/-- Oracle values for one `sendTransaction` call. -/
structure SendEnv where
  decryptResult : Except Unit String
  ethOutcome : Except String EthSendResult
  btcHash : String
  solHash : String
  now : Nat
deriving DecidableEq, Repr

/-- The per-chain build/sign/submit stage of `sendTransaction`: the real
Ethereum provider path, the simulated Bitcoin/Solana paths (which always
succeed with a fabricated hash), or the `default:` throw. Returns the
transaction hash and the Ethereum gas figures. -/
def adapterStage (env : SendEnv) (chain : String) :
    Except TxFailure (String × Option Rat × Option Rat) :=
  if chain = ethereumType then
    match env.ethOutcome with
    | .error msg => .error (.networkError msg)
    | .ok r => .ok (r.hash, some r.gasUsed, some r.gasPrice)
  else if chain = bitcoinType then .ok (env.btcHash, none, none)
  else if chain = solanaType then .ok (env.solHash, none, none)
  else .error (.unsupportedChain chain)

/-- `WalletService.sendTransaction walletId toAddress amount fee?`. -/
def sendTransaction (env : SendEnv) (m : WalletState) (walletId toAddress : String)
    (amount : Rat) (fee : Option Rat) : Except SendError Transaction × WalletState :=
  match mapGet m walletId with
  | none => (.error .walletNotFound, m)
  | some wallet =>
    match env.decryptResult with
    | .error _ => (.error (.transferFailed .decryptionError), m)
    | .ok _privateKey =>
      match adapterStage env wallet.type with
      | .error cause => (.error (.transferFailed cause), m)
      | .ok (txHash, gasUsed, gasPrice) =>
        let transaction : Transaction := {
          id := "tx_" ++ toString env.now
          walletId := walletId
          type := .send
          amount := amount
          fee := fee.getD 0
          fromAddress := wallet.address
          toAddress := toAddress
          hash := txHash
          status := .pending
          timestamp := env.now
          gasUsed := gasUsed
          gasPrice := gasPrice }
        (.ok transaction, m)

/-! ## WalletService.getBalance

The three chain queries (`getEthereumBalance` / `getBitcoinBalance` /
`getSolanaBalance`) each wrap their network call in a `try` that catches
any failure and returns `0`.  A failed query is therefore a `none` oracle
value, turned into `0` by `Option.getD` exactly as the catch does.
`getBalance` then stores the fetched number and returns it; its own outer
catch (`return wallet.balance || 0`) is unreachable for the three
supported chains because the helpers never throw. -/

/-- Oracle values for one `getBalance` call: each chain query's outcome
(`none` = the network call failed) and `Date.now()`. -/
structure BalanceEnv where
  ethBalance : Option Rat
  btcBalance : Option Rat
  solBalance : Option Rat
  now : Nat
deriving DecidableEq, Repr

/-- `WalletService.getBalance walletId`. -/
def getBalance (env : BalanceEnv) (m : WalletState) (walletId : String) :
    Except Unit Rat × WalletState :=
  match mapGet m walletId with
  | none => (.error (), m)
  | some wallet =>
    let balance : Rat :=
      if wallet.type = ethereumType then env.ethBalance.getD 0
      else if wallet.type = bitcoinType then env.btcBalance.getD 0
      else if wallet.type = solanaType then env.solBalance.getD 0
      else wallet.balance
    let wallet' := { wallet with balance := balance, updatedAt := env.now }
    (.ok balance, mapSet m walletId wallet')

/-! ## WalletService.initializeDemoWallets

Returns immediately when the user already owns a wallet.  Otherwise it
creates the three demo wallets inside a `try` whose catch only logs: a
failing create leaves the wallets made so far in place and returns.  After
the creates it re-queries the user's wallets and stores a demo balance on
each via `updateWallet`. -/

/-- Oracle values for one `initializeDemoWallets` call: one `CreateEnv`
per demo wallet, the three random demo balances (already rounded to six
decimals as `parseFloat(balance.toFixed(6))` does), and the `new Date()`
used by the `updateWallet` calls. -/
structure DemoEnv where
  ethEnv : CreateEnv
  btcEnv : CreateEnv
  solEnv : CreateEnv
  ethBal : Rat
  btcBal : Rat
  solBal : Rat
  updNow : Nat
deriving DecidableEq, Repr

/-- The demo balance assigned to a wallet by chain (`default:` gives 0). -/
def demoBalance (env : DemoEnv) (chain : String) : Rat :=
  if chain = ethereumType then env.ethBal
  else if chain = bitcoinType then env.btcBal
  else if chain = solanaType then env.solBal
  else 0

/-- `WalletService.initializeDemoWallets userId` (resulting registry). -/
def initializeDemoWallets (env : DemoEnv) (m : WalletState) (userId : String) :
    WalletState :=
  if getWalletsByUserId m userId ≠ [] then m
  else
    let (r1, m1) := createWallet env.ethEnv m userId ethereumType "My ETH Wallet"
    match r1 with
    | .error _ => m1
    | .ok _ =>
      let (r2, m2) := createWallet env.btcEnv m1 userId bitcoinType "My BTC Wallet"
      match r2 with
      | .error _ => m2
      | .ok _ =>
        let (r3, m3) := createWallet env.solEnv m2 userId solanaType "My SOL Wallet"
        match r3 with
        | .error _ => m3
        | .ok _ =>
          let userWallets := getWalletsByUserId m3 userId
          userWallets.foldl
            (fun s w => updateWallet s { w with balance := demoBalance env w.type } env.updNow)
            m3

/-! ## SendScreen.validateForm (src/screens/SendScreen.tsx)

The only validation performed before a transfer lives in the UI: it is run
by `handleSend`, which calls `sendTransaction` only when it returns no
error.  `parseFloat(amount)` is a JS builtin, supplied as an oracle
`Option Rat` (`none` = NaN); `trim` is embedded over whitespace chars. -/

/-- JS `String.prototype.trim` over the usual ASCII whitespace. -/
def jsTrim (s : String) : String :=
  let ws := fun c => c = ' ' ∨ c = '\t' ∨ c = '\n' ∨ c = '\r'
  ⟨((s.data.dropWhile ws).reverse.dropWhile ws).reverse⟩

/-- The `newErrors` object built by `validateForm`. -/
structure FormErrors where
  address : Option String
  amount : Option String
deriving DecidableEq, Repr

/-- `SendScreen.validateForm` for a recipient address, the raw amount
text, its `parseFloat` value and the selected wallet. -/
def validateForm (recipientAddress amountRaw : String) (parsedAmount : Option Rat)
    (selectedWallet : Option Wallet) : FormErrors :=
  let addressError : Option String :=
    if jsTrim recipientAddress = "" then some "Recipient address is required"
    else if recipientAddress.length < 20 then some "Please enter a valid wallet address"
    else none
  let amountError : Option String :=
    if jsTrim amountRaw = "" then some "Amount is required"
    else
      match parsedAmount with
      | none => some "Please enter a valid amount"
      | some a =>
        if a ≤ 0 then some "Please enter a valid amount"
        else
          match selectedWallet with
          | some w => if a > w.balance then some "Insufficient balance" else none
          | none => none
  { address := addressError, amount := amountError }

/-- `validateForm`'s return value: true when `newErrors` stayed empty,
which is the only case in which `handleSend` goes on to call
`sendTransaction`. -/
def formIsValid (e : FormErrors) : Bool :=
  e.address.isNone && e.amount.isNone

/-! ## Security-collaborator password hashing
(SecurityManager.hashPassword / verifyPassword)

`hashPassword` delegates to the external SHA-256 digest of expo-crypto,
embedded as an abstract digest function; `verifyPassword` re-hashes and
compares the hex digest strings. -/

/-- `SecurityManager.hashPassword` over an abstract digest collaborator. -/
def hashPassword (digest : String → String) (password : String) : String :=
  digest password

/-- `SecurityManager.verifyPassword`: re-hash and compare. -/
def verifyPassword (digest : String → String) (password hash : String) : Bool :=
  hashPassword digest password == hash

/-! ## Registry operation sequences (for the registry invariant)

An arbitrary interleaving of the four registry-touching operations, each
with its own oracle values. -/

/-- One registry operation with its call arguments and oracle values. -/
inductive RegistryOp where
  | create (env : CreateEnv) (userId chain name : String)
  | update (w : Wallet) (now : Nat)
  | delete (walletId : String)
  | refresh (env : BalanceEnv) (walletId : String)
deriving DecidableEq, Repr

/-- The registry state after one operation. -/
def applyOp (m : WalletState) : RegistryOp → WalletState
  | .create env userId chain name => (createWallet env m userId chain name).2
  | .update w now => updateWallet m w now
  | .delete walletId => deleteWallet m walletId
  | .refresh env walletId => (getBalance env m walletId).2

/-- The registry state after a sequence of operations, starting from the
empty map the service is constructed with. -/
def applyOps (ops : List RegistryOp) : WalletState :=
  ops.foldl applyOp []

/-- The condition under which a step cannot rewrite an existing wallet's
address: an `update` must carry the stored address for its id (all in-repo
callers do — they only mutate `balance`), and a `create` must not collide
with an existing `` `${chain}_${Date.now()}` `` id. -/
def addrSafeStep (m : WalletState) : RegistryOp → Bool
  | .create env _ chain _ => (mapGet m (chain ++ "_" ++ toString env.now)).isNone
  | .update w _ =>
      match mapGet m w.id with
      | some v => w.address == v.address
      | none => true
  | .delete _ => true
  | .refresh _ _ => true

/-! ## Concrete sample values used by witnesses and counterexamples -/

/-- A registered Ethereum wallet with stored balance 5. -/
def sampleEthWallet : Wallet :=
  { id := "ethereum_1000"
    userId := "u1"
    name := "My ETH Wallet"
    type := ethereumType
    address := "0x1111111111111111111111111111111111111111"
    privateKey := "encpk1"
    balance := 5
    symbol := "ETH"
    decimals := 18
    createdAt := 1000
    updatedAt := 1000 }

/-- A registered Bitcoin wallet with stored balance 1. -/
def sampleBtcWallet : Wallet :=
  { id := "bitcoin_1001"
    userId := "u1"
    name := "My BTC Wallet"
    type := bitcoinType
    address := "bc1qqqqqqqqqqqqqqqqqqqqqqqqqqqqqqqqqqqqqqq"
    privateKey := "encpk2"
    balance := 1
    symbol := "BTC"
    decimals := 8
    createdAt := 1001
    updatedAt := 1001 }

/-- A registry holding the two sample wallets. -/
def sampleState : WalletState :=
  [(sampleEthWallet.id, sampleEthWallet), (sampleBtcWallet.id, sampleBtcWallet)]

/-- A well-formed 42-char recipient address. -/
def sampleRecipient : String := "0x2222222222222222222222222222222222222222"

/-- Send oracle where decryption and every chain path succeed. -/
def okSendEnv : SendEnv :=
  { decryptResult := .ok "pk"
    ethOutcome := .ok { hash := "0xeth_tx", gasUsed := 21000, gasPrice := 2 }
    btcHash := "btc_tx_1"
    solHash := "sol_tx_1"
    now := 2000 }

/-- Send oracle where the Ethereum provider round trip fails. -/
def failEthSendEnv : SendEnv :=
  { okSendEnv with ethOutcome := .error "provider rejected transaction" }

/-- Balance oracle where every chain query fails. -/
def failingBalanceEnv : BalanceEnv :=
  { ethBalance := none, btcBalance := none, solBalance := none, now := 3000 }

/-- Create oracle with fixed key material and a working encryption engine. -/
def sampleCreateEnv : CreateEnv :=
  { ethAddress := "0x3333333333333333333333333333333333333333"
    ethPrivKey := "0xprivA"
    btcEntropyHex := "aaaaaaaaaaaaaaaaaaaaaaaaaaaaaaaaaaaaaaaaaaaaaaaaaaaaaaaaaaaaaaaa"
    solAddress := "So11111111111111111111111111111111111111112"
    solSecretB64 := "c2VjcmV0"
    encryptResult := .ok "encLayer"
    now := 1000 }

/-- A stand-in digest collaborator for concrete password checks. -/
def demoDigest : String → String := fun s => "sha256:" ++ s

/-- Demo-wallet oracle with three working create environments. -/
def sampleDemoEnvA : DemoEnv :=
  { ethEnv := sampleCreateEnv
    btcEnv := { sampleCreateEnv with now := 1001 }
    solEnv := { sampleCreateEnv with now := 1002 }
    ethBal := 2
    btcBal := 1/20
    solBal := 25
    updNow := 1003 }

/-- A second, different demo-wallet oracle for the repeated call. -/
def sampleDemoEnvB : DemoEnv :=
  { sampleDemoEnvA with
    ethEnv := { sampleCreateEnv with now := 5000 }
    btcEnv := { sampleCreateEnv with now := 5001 }
    solEnv := { sampleCreateEnv with now := 5002 }
    updNow := 5003 }

/-- The sample Bitcoin wallet with its address replaced, as an
`updateWallet` argument. -/
def tamperedBtcWallet : Wallet :=
  { sampleBtcWallet with address := "bc1evil0000000000000000000000000000000000" }

/-! ## Theorems -/

theorem b64dec_b64enc : ∀ s : Nat, s < 64 → b64dec (b64enc s) = s := by decide

theorem b64enc_ne_61 : ∀ s : Nat, s < 64 → b64enc s ≠ 61 := by decide

theorem div_mul_add (m x y : Nat) (hm : 0 < m) (hy : y < m) : (x * m + y) / m = x := by
  rw [Nat.mul_comm, Nat.mul_add_div hm, Nat.div_eq_of_lt hy, Nat.add_zero]

theorem mod_mul_add (m x y : Nat) (_hm : 0 < m) (hy : y < m) : (x * m + y) % m = y := by
  rw [Nat.mul_comm, Nat.mul_add_mod, Nat.mod_eq_of_lt hy]

theorem byte_recon1 (a b : Nat) (hb : b < 256) :
    a / 4 * 4 + (a % 4 * 16 + b / 16) / 16 = a := by
  rw [div_mul_add 16 (a % 4) (b / 16) (by norm_num) (by omega)]
  omega

theorem byte_recon1' (a : Nat) : a / 4 * 4 + a % 4 * 16 / 16 = a := by
  rw [Nat.mul_div_cancel _ (by norm_num : (0 : Nat) < 16)]
  omega

theorem byte_recon2 (a b c : Nat) (hb : b < 256) (hc : c < 256) :
    (a % 4 * 16 + b / 16) % 16 * 16 + (b % 16 * 4 + c / 64) / 4 = b := by
  rw [mod_mul_add 16 (a % 4) (b / 16) (by norm_num) (by omega),
    div_mul_add 4 (b % 16) (c / 64) (by norm_num) (by omega)]
  omega

theorem byte_recon2' (a b : Nat) (hb : b < 256) :
    (a % 4 * 16 + b / 16) % 16 * 16 + b % 16 * 4 / 4 = b := by
  rw [mod_mul_add 16 (a % 4) (b / 16) (by norm_num) (by omega),
    Nat.mul_div_cancel _ (by norm_num : (0 : Nat) < 4)]
  omega

theorem byte_recon3 (b c : Nat) (hc : c < 256) :
    (b % 16 * 4 + c / 64) % 4 * 64 + c % 64 = c := by
  rw [mod_mul_add 4 (b % 16) (c / 64) (by norm_num) (by omega)]
  omega

theorem atob_btoa (l : List Nat) (h : ∀ x ∈ l, x < 256) : atob (btoa l) = l := by
  induction l using btoa.induct with
  | case1 => simp [btoa, atob]
  | case2 a =>
    have ha : a < 256 := h a (by simp)
    have h1 : a / 4 < 64 := by omega
    have h2 : a % 4 * 16 < 64 := by omega
    simp only [btoa, atob, eq_self_iff_true, ite_true, b64dec_b64enc _ h1,
      b64dec_b64enc _ h2]
    rw [byte_recon1' a]
  | case3 a b =>
    have ha : a < 256 := h a (by simp)
    have hb : b < 256 := h b (by simp)
    have h1 : a / 4 < 64 := by omega
    have h2 : a % 4 * 16 + b / 16 < 64 := by omega
    have h3 : b % 16 * 4 < 64 := by omega
    simp only [btoa, atob, if_neg (b64enc_ne_61 _ h3), eq_self_iff_true, ite_true,
      b64dec_b64enc _ h1, b64dec_b64enc _ h2, b64dec_b64enc _ h3]
    rw [byte_recon1 a b hb, byte_recon2' a b hb]
  | case4 a b c rest ih =>
    have ha : a < 256 := h a (by simp)
    have hb : b < 256 := h b (by simp)
    have hc : c < 256 := h c (by simp)
    have h1 : a / 4 < 64 := by omega
    have h2 : a % 4 * 16 + b / 16 < 64 := by omega
    have h3 : b % 16 * 4 + c / 64 < 64 := by omega
    have h4 : c % 64 < 64 := by omega
    have hrest : ∀ x ∈ rest, x < 256 := fun x hx => h x (by simp [hx])
    simp only [btoa, atob, if_neg (b64enc_ne_61 _ h3), if_neg (b64enc_ne_61 _ h4),
      b64dec_b64enc _ h1, b64dec_b64enc _ h2, b64dec_b64enc _ h3, b64dec_b64enc _ h4,
      ih hrest]
    rw [byte_recon1 a b hb, byte_recon2 a b c hb hc, byte_recon3 b c hc]

theorem xorFrom_involutive (key : List Nat) :
    ∀ (i : Nat) (s : List Nat), xorFrom key i (xorFrom key i s) = s := by
  intro i s
  induction s generalizing i with
  | nil => rfl
  | cons c rest ih =>
    simp only [xorFrom, ih]
    congr 1
    rw [Nat.xor_assoc, Nat.xor_self, Nat.xor_zero]

theorem getD_lt_256 (key : List Nat) (hk : ∀ c ∈ key, c < 256) (j : Nat) :
    key.getD j 0 < 256 := by
  by_cases hj : j < key.length
  · rw [List.getD_eq_getElem _ _ hj]
    exact hk _ (List.getElem_mem hj)
  · rw [List.getD_eq_default _ _ (by omega)]
    omega

theorem xorFrom_lt_256 (key : List Nat) (hk : ∀ c ∈ key, c < 256) :
    ∀ (i : Nat) (s : List Nat), (∀ c ∈ s, c < 256) →
      ∀ x ∈ xorFrom key i s, x < 256 := by
  intro i s
  induction s generalizing i with
  | nil => intro _ x hx; simp [xorFrom] at hx
  | cons c rest ih =>
    intro hs x hx
    simp only [xorFrom, List.mem_cons] at hx
    rcases hx with hx | hx
    · subst hx
      have h1 : c < 2 ^ 8 := hs c (by simp)
      have h2 : key.getD (i % key.length) 0 < 2 ^ 8 := getD_lt_256 key hk _
      exact Nat.xor_lt_two_pow h1 h2
    · exact ih (i + 1) (fun y hy => hs y (by simp [hy])) x hx

/-- C1: with the Encryption Engine initialized (a nonempty byte-valued key,
as produced by `initialize`), `decryptPrivateKey` inverts
`encryptPrivateKey` on every byte-valued private-key string, including the
empty string. -/
theorem decrypt_encrypt_roundtrip (key privateKey : List Nat)
    (hkey : key ≠ []) (hk : ∀ c ∈ key, c < 256) (hp : ∀ c ∈ privateKey, c < 256) :
    decryptPrivateKey key (encryptPrivateKey key privateKey) = privateKey := by
  unfold decryptPrivateKey encryptPrivateKey xorWithKey
  rw [atob_btoa _ (xorFrom_lt_256 key hk 0 privateKey hp)]
  exact xorFrom_involutive key 0 privateKey

/-- C1 witness: the round trip at a concrete hex key, for a concrete
private-key string and for the empty string. -/
theorem decrypt_encrypt_roundtrip_witness :
    decryptPrivateKey [97, 98, 99] (encryptPrivateKey [97, 98, 99] [104, 101, 108, 108, 111]) =
      [104, 101, 108, 108, 111] ∧
    decryptPrivateKey [97, 98, 99] (encryptPrivateKey [97, 98, 99] []) = [] :=
  ⟨decrypt_encrypt_roundtrip [97, 98, 99] [104, 101, 108, 108, 111]
      (by decide) (by decide) (by decide),
   decrypt_encrypt_roundtrip [97, 98, 99] [] (by decide) (by decide) (by decide)⟩

/-! ## Registry lemmas -/

theorem mapSet_cons_eq (k0 k : String) (v0 v : Wallet) (rest : WalletState)
    (h : k0 = k) : mapSet ((k0, v0) :: rest) k v = (k, v) :: rest := by
  simp [mapSet, h]

theorem mapSet_cons_ne (k0 k : String) (v0 v : Wallet) (rest : WalletState)
    (h : k0 ≠ k) : mapSet ((k0, v0) :: rest) k v = (k0, v0) :: mapSet rest k v := by
  simp [mapSet, h]

theorem mapGet_cons (k0 k : String) (v0 : Wallet) (rest : WalletState) :
    mapGet ((k0, v0) :: rest) k = if k0 = k then some v0 else mapGet rest k := rfl

theorem mapDelete_cons_eq (k0 k : String) (v0 : Wallet) (rest : WalletState)
    (h : k0 = k) : mapDelete ((k0, v0) :: rest) k = mapDelete rest k := by
  simp [mapDelete, List.filter_cons, h]

theorem mapDelete_cons_ne (k0 k : String) (v0 : Wallet) (rest : WalletState)
    (h : k0 ≠ k) :
    mapDelete ((k0, v0) :: rest) k = (k0, v0) :: mapDelete rest k := by
  simp [mapDelete, List.filter_cons, h]

theorem mapGet_mapSet_self (m : WalletState) (k : String) (v : Wallet) :
    mapGet (mapSet m k v) k = some v := by
  induction m with
  | nil => simp [mapSet, mapGet]
  | cons p rest ih =>
    obtain ⟨k0, v0⟩ := p
    by_cases h : k0 = k
    · rw [mapSet_cons_eq k0 k v0 v rest h, mapGet_cons, if_pos rfl]
    · rw [mapSet_cons_ne k0 k v0 v rest h, mapGet_cons, if_neg h]
      exact ih

theorem mapGet_mapSet_ne (m : WalletState) (k k' : String) (v : Wallet)
    (h : k' ≠ k) : mapGet (mapSet m k v) k' = mapGet m k' := by
  have hkk : k ≠ k' := fun hh => h hh.symm
  induction m with
  | nil => simp [mapSet, mapGet, hkk]
  | cons p rest ih =>
    obtain ⟨k0, v0⟩ := p
    by_cases h0 : k0 = k
    · subst h0
      rw [mapSet_cons_eq k0 k0 v0 v rest rfl, mapGet_cons, mapGet_cons,
        if_neg hkk, if_neg hkk]
    · rw [mapSet_cons_ne k0 k v0 v rest h0, mapGet_cons, mapGet_cons]
      by_cases h1 : k0 = k'
      · rw [if_pos h1, if_pos h1]
      · rw [if_neg h1, if_neg h1]
        exact ih

theorem mem_mapKeys_mapSet (m : WalletState) (k x : String) (v : Wallet)
    (h : x ∈ mapKeys (mapSet m k v)) : x ∈ mapKeys m ∨ x = k := by
  induction m with
  | nil =>
    simp [mapSet, mapKeys] at h
    exact Or.inr h
  | cons p rest ih =>
    obtain ⟨k0, v0⟩ := p
    by_cases h0 : k0 = k
    · rw [mapSet_cons_eq k0 k v0 v rest h0] at h
      simp only [mapKeys, List.map_cons, List.mem_cons] at h ⊢
      rcases h with h | h
      · exact Or.inr h
      · exact Or.inl (Or.inr h)
    · rw [mapSet_cons_ne k0 k v0 v rest h0] at h
      simp only [mapKeys, List.map_cons, List.mem_cons] at h ⊢
      rcases h with h | h
      · exact Or.inl (Or.inl h)
      · rcases ih h with h' | h'
        · exact Or.inl (Or.inr h')
        · exact Or.inr h'

theorem nodup_mapKeys_mapSet (m : WalletState) (k : String) (v : Wallet)
    (h : (mapKeys m).Nodup) : (mapKeys (mapSet m k v)).Nodup := by
  induction m with
  | nil => simp [mapSet, mapKeys]
  | cons p rest ih =>
    obtain ⟨k0, v0⟩ := p
    rw [mapKeys, List.map_cons, List.nodup_cons] at h
    by_cases h0 : k0 = k
    · subst h0
      rw [mapSet_cons_eq k0 k0 v0 v rest rfl, mapKeys, List.map_cons, List.nodup_cons]
      exact ⟨h.1, h.2⟩
    · rw [mapSet_cons_ne k0 k v0 v rest h0, mapKeys, List.map_cons, List.nodup_cons]
      refine ⟨fun hmem => ?_, ih h.2⟩
      rcases mem_mapKeys_mapSet rest k k0 v hmem with h' | h'
      · exact h.1 h'
      · exact h0 h'

theorem mem_mapKeys_mapDelete (m : WalletState) (k x : String)
    (h : x ∈ mapKeys (mapDelete m k)) : x ∈ mapKeys m := by
  induction m with
  | nil => simpa [mapDelete, mapKeys] using h
  | cons p rest ih =>
    obtain ⟨k0, v0⟩ := p
    by_cases h0 : k0 = k
    · rw [mapDelete_cons_eq k0 k v0 rest h0] at h
      exact List.mem_cons_of_mem _ (ih h)
    · rw [mapDelete_cons_ne k0 k v0 rest h0] at h
      simp only [mapKeys, List.map_cons, List.mem_cons] at h ⊢
      rcases h with h | h
      · exact Or.inl h
      · exact Or.inr (ih h)

theorem nodup_mapKeys_mapDelete (m : WalletState) (k : String)
    (h : (mapKeys m).Nodup) : (mapKeys (mapDelete m k)).Nodup := by
  induction m with
  | nil => simp [mapDelete, mapKeys]
  | cons p rest ih =>
    obtain ⟨k0, v0⟩ := p
    rw [mapKeys, List.map_cons, List.nodup_cons] at h
    by_cases h0 : k0 = k
    · rw [mapDelete_cons_eq k0 k v0 rest h0]
      exact ih h.2
    · rw [mapDelete_cons_ne k0 k v0 rest h0, mapKeys, List.map_cons, List.nodup_cons]
      exact ⟨fun hmem => h.1 (mem_mapKeys_mapDelete rest k k0 hmem), ih h.2⟩

theorem mapGet_mapDelete_self (m : WalletState) (k : String) :
    mapGet (mapDelete m k) k = none := by
  induction m with
  | nil => rfl
  | cons p rest ih =>
    obtain ⟨k0, v0⟩ := p
    by_cases h0 : k0 = k
    · rw [mapDelete_cons_eq k0 k v0 rest h0]
      exact ih
    · rw [mapDelete_cons_ne k0 k v0 rest h0, mapGet_cons, if_neg h0]
      exact ih

theorem mapGet_mapDelete_ne (m : WalletState) (k k' : String) (h : k' ≠ k) :
    mapGet (mapDelete m k) k' = mapGet m k' := by
  induction m with
  | nil => rfl
  | cons p rest ih =>
    obtain ⟨k0, v0⟩ := p
    by_cases h0 : k0 = k
    · rw [mapDelete_cons_eq k0 k v0 rest h0, mapGet_cons,
        if_neg (fun hh => h (hh.symm.trans h0))]
      exact ih
    · rw [mapDelete_cons_ne k0 k v0 rest h0, mapGet_cons, mapGet_cons]
      by_cases h1 : k0 = k'
      · rw [if_pos h1, if_pos h1]
      · rw [if_neg h1, if_neg h1]
        exact ih

theorem mem_mapValues_mapSet (m : WalletState) (k : String) (v : Wallet) :
    v ∈ mapValues (mapSet m k v) := by
  induction m with
  | nil => simp [mapSet, mapValues]
  | cons p rest ih =>
    obtain ⟨k0, v0⟩ := p
    by_cases h0 : k0 = k
    · rw [mapSet_cons_eq k0 k v0 v rest h0]
      simp [mapValues]
    · rw [mapSet_cons_ne k0 k v0 v rest h0]
      simp only [mapValues, List.map_cons, List.mem_cons]
      exact Or.inr ih

/-! ## Claim theorems -/

/-- C6: for every registered wallet, when decryption and the chain adapter
stage succeed, `sendTransaction` returns a Transaction with `status`
pending, `hash` the adapter's value, `fromAddress` the wallet's address,
and `amount`/`toAddress` the arguments passed; the registry is unchanged. -/
theorem sendTransaction_success_shape (env : SendEnv) (m : WalletState)
    (walletId toAddress : String) (amount : Rat) (fee : Option Rat)
    (wallet : Wallet) (pk txHash : String) (gu gp : Option Rat)
    (hw : mapGet m walletId = some wallet)
    (hd : env.decryptResult = .ok pk)
    (ha : adapterStage env wallet.type = .ok (txHash, gu, gp)) :
    sendTransaction env m walletId toAddress amount fee =
      (.ok { id := "tx_" ++ toString env.now
             walletId := walletId
             type := .send
             amount := amount
             fee := fee.getD 0
             fromAddress := wallet.address
             toAddress := toAddress
             hash := txHash
             status := .pending
             timestamp := env.now
             gasUsed := gu
             gasPrice := gp }, m) := by
  unfold sendTransaction
  simp only [hw, hd, ha]

/-- C6 witness: a Bitcoin send through the registered sample wallet. -/
theorem sendTransaction_success_shape_witness :
    sendTransaction okSendEnv sampleState "bitcoin_1001" sampleRecipient 2 none =
      (.ok { id := "tx_" ++ toString okSendEnv.now
             walletId := "bitcoin_1001"
             type := .send
             amount := 2
             fee := (none : Option Rat).getD 0
             fromAddress := sampleBtcWallet.address
             toAddress := sampleRecipient
             hash := "btc_tx_1"
             status := .pending
             timestamp := okSendEnv.now
             gasUsed := none
             gasPrice := none }, sampleState) :=
  sendTransaction_success_shape okSendEnv sampleState "bitcoin_1001" sampleRecipient
    2 none sampleBtcWallet "pk" "btc_tx_1" none none (by decide) (by decide) (by decide)

/-- C4: whenever the adapter stage of `sendTransaction` fails, the call
returns the catch-all transfer failure wrapping the caught cause, and the
registry — wallet balances included — is exactly the input state, so no
partial Transaction record is persisted anywhere. -/
theorem sendTransaction_adapter_failure (env : SendEnv) (m : WalletState)
    (walletId toAddress : String) (amount : Rat) (fee : Option Rat)
    (wallet : Wallet) (pk : String) (cause : TxFailure)
    (hw : mapGet m walletId = some wallet)
    (hd : env.decryptResult = .ok pk)
    (ha : adapterStage env wallet.type = .error cause) :
    sendTransaction env m walletId toAddress amount fee =
      (.error (.transferFailed cause), m) := by
  unfold sendTransaction
  simp only [hw, hd, ha]

/-- C4 witness: a failing Ethereum provider round trip on the registered
sample wallet. -/
theorem sendTransaction_adapter_failure_witness :
    sendTransaction failEthSendEnv sampleState "ethereum_1000" sampleRecipient 1 none =
      (.error (.transferFailed (.networkError "provider rejected transaction")),
        sampleState) :=
  sendTransaction_adapter_failure failEthSendEnv sampleState "ethereum_1000"
    sampleRecipient 1 none sampleEthWallet "pk"
    (.networkError "provider rejected transaction") (by decide) (by decide) (by decide)

/-- C7: for every chain value other than ethereum, bitcoin and solana,
`createWallet` fails on the `default:` branch of the key-generation switch
(the unsupported-chain failure) and adds nothing to the registry. -/
theorem createWallet_unsupported_chain (env : CreateEnv) (m : WalletState)
    (userId cryptoType name : String)
    (h1 : cryptoType ≠ ethereumType) (h2 : cryptoType ≠ bitcoinType)
    (h3 : cryptoType ≠ solanaType) :
    createWallet env m userId cryptoType name =
      (.error (.unsupportedChain cryptoType), m) := by
  unfold createWallet genKeyPair
  rw [if_neg h1, if_neg h2, if_neg h3]

/-- C7 witness: creating a "dogecoin" wallet fails and leaves the registry
unchanged. -/
theorem createWallet_unsupported_chain_witness :
    createWallet sampleCreateEnv sampleState "u1" "dogecoin" "My DOGE Wallet" =
      (.error (.unsupportedChain "dogecoin"), sampleState) :=
  createWallet_unsupported_chain sampleCreateEnv sampleState "u1" "dogecoin"
    "My DOGE Wallet" (by decide) (by decide) (by decide)

/-- C9: for every digest collaborator, `verifyPassword p (hashPassword p)`
is true, and `verifyPassword q (hashPassword p)` is false whenever the two
digests differ. -/
theorem verifyPassword_spec (digest : String → String) (p q : String) :
    verifyPassword digest p (hashPassword digest p) = true ∧
    (digest q ≠ digest p → verifyPassword digest q (hashPassword digest p) = false) := by
  constructor
  · simp [verifyPassword, hashPassword]
  · intro h
    simp [verifyPassword, hashPassword, h]

/-- C9 witness: with a concrete digest, "secret" verifies against its own
digest and "wrong" does not. -/
theorem verifyPassword_spec_witness :
    verifyPassword demoDigest "secret" (hashPassword demoDigest "secret") = true ∧
    verifyPassword demoDigest "wrong" (hashPassword demoDigest "secret") = false :=
  ⟨(verifyPassword_spec demoDigest "secret" "wrong").1,
   (verifyPassword_spec demoDigest "secret" "wrong").2 (by decide)⟩

/-- C5: evaluation at the failing input.  With a registered Ethereum wallet
whose stored balance is 5 and a failing chain query, `getBalance` does not
raise, but it returns 0 — the value the helper's internal catch substitutes
for the failed query — and overwrites the stored balance with 0, instead of
returning the last stored value 5 as specified. -/
theorem getBalance_query_failure_returns_zero :
    (mapGet sampleState "ethereum_1000").map Wallet.balance = some 5 ∧
    (getBalance failingBalanceEnv sampleState "ethereum_1000").1 = .ok 0 ∧
    (mapGet (getBalance failingBalanceEnv sampleState "ethereum_1000").2
        "ethereum_1000").map Wallet.balance = some 0 := by
  decide

/-- C2 counterexample: the registered sample Bitcoin wallet has stored
balance 1, yet `sendTransaction` of amount 5 — strictly above the balance —
succeeds (the service performs no balance check at all), so the claimed
insufficient-funds failure does not occur. -/
theorem sendTransaction_overdraft_succeeds :
    mapGet sampleState "bitcoin_1001" = some sampleBtcWallet ∧
    sampleBtcWallet.balance < 5 ∧
    (sendTransaction okSendEnv sampleState "bitcoin_1001" sampleRecipient 5 none).1.isOk
      = true := by
  decide

/-- C2 amended: `WalletService.sendTransaction` itself checks no balance
and never touches the registry, so any stored balance is unchanged; the
insufficient-funds rejection lives in the UI's `validateForm`, which flags
`amount > wallet.balance` as "Insufficient balance" and makes the form
invalid, so `handleSend` never calls `sendTransaction`. -/
theorem insufficient_funds_check_is_ui_only :
    (∀ (env : SendEnv) (m : WalletState) (walletId toAddress : String)
        (amount : Rat) (fee : Option Rat),
      (sendTransaction env m walletId toAddress amount fee).2 = m) ∧
    (∀ (addr amtRaw : String) (a : Rat) (w : Wallet),
      jsTrim amtRaw ≠ "" → 0 < a → w.balance < a →
      (validateForm addr amtRaw (some a) (some w)).amount = some "Insufficient balance" ∧
      formIsValid (validateForm addr amtRaw (some a) (some w)) = false) := by
  constructor
  · intro env m walletId toAddress amount fee
    unfold sendTransaction
    split
    · rfl
    · split
      · rfl
      · split
        · rfl
        · rfl
  · intro addr amtRaw a w h1 h2 h3
    have hle : ¬ a ≤ 0 := not_le.mpr h2
    have hgt : a > w.balance := h3
    constructor
    · simp only [validateForm, if_neg h1, if_neg hle, if_pos hgt]
    · simp [validateForm, formIsValid, if_neg h1, if_neg hle, if_pos hgt]

/-- C2 amended witness: the overdraft attempt leaves the registry as it
was, and the UI flags it with "Insufficient balance". -/
theorem insufficient_funds_check_is_ui_only_witness :
    (sendTransaction okSendEnv sampleState "bitcoin_1001" sampleRecipient 5 none).2
      = sampleState ∧
    (validateForm sampleRecipient "5" (some 5) (some sampleBtcWallet)).amount
      = some "Insufficient balance" :=
  ⟨insufficient_funds_check_is_ui_only.1 okSendEnv sampleState "bitcoin_1001"
      sampleRecipient 5 none,
   (insufficient_funds_check_is_ui_only.2 sampleRecipient "5" 5 sampleBtcWallet
      (by decide) (by decide) (by decide)).1⟩

/-- C3 counterexample: `sendTransaction` from the registered sample Bitcoin
wallet to the malformed address "not-an-address" succeeds with the
simulated hash (no chain-specific address validation, no invalid-address
failure anywhere in the service). -/
theorem sendTransaction_malformed_address_succeeds :
    mapGet sampleState "bitcoin_1001" = some sampleBtcWallet ∧
    String.length "not-an-address" < 20 ∧
    (sendTransaction okSendEnv sampleState "bitcoin_1001" "not-an-address" 1 none).1
      = .ok { id := "tx_" ++ toString (2000 : Nat)
              walletId := "bitcoin_1001"
              type := .send
              amount := 1
              fee := 0
              fromAddress := sampleBtcWallet.address
              toAddress := "not-an-address"
              hash := "btc_tx_1"
              status := .pending
              timestamp := 2000
              gasUsed := none
              gasPrice := none } := by
  decide

/-- C3 amended: the only address check before a transfer is the UI's
`validateForm`, which rejects any nonempty recipient shorter than 20 chars
— "not-an-address" included — with "Please enter a valid wallet address"
and an invalid form, so `handleSend` never calls `sendTransaction` or the
network; `sendTransaction` itself performs no chain-specific address-format
validation and succeeds on the simulated Bitcoin/Solana paths for any
address. -/
theorem address_check_is_ui_only (addr amtRaw : String) (pa : Option Rat)
    (sw : Option Wallet) (hne : jsTrim addr ≠ "") (hlen : addr.length < 20) :
    (validateForm addr amtRaw pa sw).address = some "Please enter a valid wallet address" ∧
    formIsValid (validateForm addr amtRaw pa sw) = false := by
  constructor
  · simp only [validateForm, if_neg hne, if_pos hlen]
  · simp [validateForm, formIsValid, if_neg hne, if_pos hlen]

/-- C3 amended witness: "not-an-address" is rejected by the form. -/
theorem address_check_is_ui_only_witness :
    (validateForm "not-an-address" "1" (some 1) (some sampleBtcWallet)).address
      = some "Please enter a valid wallet address" ∧
    formIsValid (validateForm "not-an-address" "1" (some 1) (some sampleBtcWallet))
      = false :=
  address_check_is_ui_only "not-an-address" "1" (some 1) (some sampleBtcWallet)
    (by decide) (by decide)

theorem createWallet_ok_eq (env : CreateEnv) (m : WalletState)
    (userId cryptoType name addr pk enc : String)
    (hk : genKeyPair env cryptoType = some (addr, pk))
    (he : env.encryptResult = .ok enc) :
    createWallet env m userId cryptoType name =
      (.ok (newWallet userId cryptoType name addr enc env.now),
        mapSet m (newWallet userId cryptoType name addr enc env.now).id
          (newWallet userId cryptoType name addr enc env.now)) := by
  unfold createWallet
  simp only [hk, he]

theorem createWallet_state (env : CreateEnv) (m : WalletState)
    (userId cryptoType name : String) :
    (createWallet env m userId cryptoType name).2 = m ∨
      ∃ k v, (createWallet env m userId cryptoType name).2 = mapSet m k v := by
  unfold createWallet
  cases hk : genKeyPair env cryptoType with
  | none => exact Or.inl rfl
  | some p =>
    obtain ⟨addr, pk⟩ := p
    cases he : env.encryptResult with
    | error e => exact Or.inl rfl
    | ok enc => exact Or.inr ⟨_, _, rfl⟩

theorem getBalance_state (env : BalanceEnv) (m : WalletState) (walletId : String) :
    (getBalance env m walletId).2 = m ∨
      ∃ v, (getBalance env m walletId).2 = mapSet m walletId v := by
  unfold getBalance
  cases hw : mapGet m walletId with
  | none => exact Or.inl rfl
  | some wallet => exact Or.inr ⟨_, rfl⟩

theorem nodup_mapKeys_applyOp (m : WalletState) (op : RegistryOp)
    (h : (mapKeys m).Nodup) : (mapKeys (applyOp m op)).Nodup := by
  cases op with
  | create env userId chain name =>
    rcases createWallet_state env m userId chain name with hst | ⟨k, v, hst⟩
    · rw [applyOp, hst]; exact h
    · rw [applyOp, hst]; exact nodup_mapKeys_mapSet m k v h
  | update w now => exact nodup_mapKeys_mapSet m w.id _ h
  | delete walletId => exact nodup_mapKeys_mapDelete m walletId h
  | refresh env walletId =>
    rcases getBalance_state env m walletId with hst | ⟨v, hst⟩
    · rw [applyOp, hst]; exact h
    · rw [applyOp, hst]; exact nodup_mapKeys_mapSet m walletId v h

theorem nodup_mapKeys_foldl_applyOp (ops : List RegistryOp) :
    ∀ m : WalletState, (mapKeys m).Nodup → (mapKeys (ops.foldl applyOp m)).Nodup := by
  induction ops with
  | nil => intro m h; exact h
  | cons op rest ih =>
    intro m h
    exact ih (applyOp m op) (nodup_mapKeys_applyOp m op h)

theorem some_inj_wallet {a b : Wallet} (h : some a = some b) : a = b :=
  Option.some.inj h

theorem applyOp_preserves_address (m : WalletState) (op : RegistryOp)
    (wid : String) (w w' : Wallet) (hsafe : addrSafeStep m op = true)
    (hw : mapGet m wid = some w) (hw' : mapGet (applyOp m op) wid = some w') :
    w'.address = w.address := by
  cases op with
  | create env userId chain name =>
    rw [applyOp] at hw'
    cases hk : genKeyPair env chain with
    | none =>
      rw [createWallet] at hw'
      rw [hk] at hw'
      rw [hw] at hw'
      exact (some_inj_wallet hw' ▸ rfl)
    | some p =>
      obtain ⟨addr, pk⟩ := p
      cases he : env.encryptResult with
      | error e =>
        rw [createWallet, hk, he] at hw'
        rw [hw] at hw'
        exact (some_inj_wallet hw' ▸ rfl)
      | ok enc =>
        rw [createWallet_ok_eq env m userId chain name addr pk enc hk he] at hw'
        rw [addrSafeStep] at hsafe
        by_cases hid : wid = (newWallet userId chain name addr enc env.now).id
        · exfalso
          have hid2 : (newWallet userId chain name addr enc env.now).id
              = chain ++ "_" ++ toString env.now := rfl
          have : mapGet m (chain ++ "_" ++ toString env.now) = some w := by
            rw [← hid2, ← hid]
            exact hw
          rw [this] at hsafe
          simp [Option.isNone] at hsafe
        · rw [mapGet_mapSet_ne m _ wid _ hid] at hw'
          rw [hw] at hw'
          exact (some_inj_wallet hw' ▸ rfl)
  | update v now =>
    rw [applyOp, updateWallet] at hw'
    rw [addrSafeStep] at hsafe
    by_cases hid : wid = v.id
    · subst hid
      rw [hw] at hsafe
      rw [mapGet_mapSet_self] at hw'
      have hv : v.address = w.address := by
        simpa using hsafe
      have : w' = { v with updatedAt := now } := (some_inj_wallet hw').symm
      rw [this]
      exact hv
    · rw [mapGet_mapSet_ne m _ wid _ hid] at hw'
      rw [hw] at hw'
      exact (some_inj_wallet hw' ▸ rfl)
  | delete k =>
    rw [applyOp, deleteWallet] at hw'
    by_cases hid : wid = k
    · subst hid
      rw [mapGet_mapDelete_self] at hw'
      exact absurd hw' (by simp)
    · rw [mapGet_mapDelete_ne m k wid hid] at hw'
      rw [hw] at hw'
      exact (some_inj_wallet hw' ▸ rfl)
  | refresh env k =>
    rw [applyOp] at hw'
    by_cases hid : wid = k
    · subst hid
      rw [getBalance, hw] at hw'
      rw [mapGet_mapSet_self] at hw' <;> try skip
      have : w' = { w with
          balance :=
            if w.type = ethereumType then env.ethBalance.getD 0
            else if w.type = bitcoinType then env.btcBalance.getD 0
            else if w.type = solanaType then env.solBalance.getD 0
            else w.balance,
          updatedAt := env.now } := (some_inj_wallet hw').symm
      rw [this]
    · cases hk : mapGet m k with
      | none =>
        rw [getBalance, hk] at hw'
        rw [hw] at hw'
        exact (some_inj_wallet hw' ▸ rfl)
      | some wallet =>
        rw [getBalance, hk] at hw'
        simp only [] at hw'
        rw [mapGet_mapSet_ne m k wid _ hid] at hw'
        rw [hw] at hw'
        exact (some_inj_wallet hw' ▸ rfl)

/-- C8 amended: across every sequence of registry operations the registry
holds at most one record per wallet id (its key list stays duplicate-free);
and a step cannot change a stored wallet's address provided it is
address-safe — `updateWallet` is given a wallet carrying the stored address
for its id (as every in-repo caller does, mutating only `balance`), and a
`create` does not collide with an existing `` `${chain}_${Date.now()}` ``
id.  An `update` with a different address for an existing id *does* change
the stored address, as `updateWallet` persists whatever object it gets. -/
theorem registry_unique_ids_and_safe_address_immutability :
    (∀ ops : List RegistryOp, (mapKeys (applyOps ops)).Nodup) ∧
    (∀ (m : WalletState) (op : RegistryOp) (wid : String) (w w' : Wallet),
      addrSafeStep m op = true → mapGet m wid = some w →
      mapGet (applyOp m op) wid = some w' → w'.address = w.address) :=
  ⟨fun ops => nodup_mapKeys_foldl_applyOp ops [] (by simp [mapKeys]),
   fun m op wid w w' hsafe hw hw' =>
     applyOp_preserves_address m op wid w w' hsafe hw hw'⟩

/-- C8 counterexample: `updateWallet` called with a wallet object whose
address differs from the stored one rewrites the stored address, so the
claim that a wallet's address is never changed after creation fails for
the unrestricted `updateWallet` operation. -/
theorem updateWallet_can_change_address :
    (mapGet sampleState "bitcoin_1001").map Wallet.address
      = some "bc1qqqqqqqqqqqqqqqqqqqqqqqqqqqqqqqqqqqqqqq" ∧
    (mapGet (updateWallet sampleState tamperedBtcWallet 4000) "bitcoin_1001").map
        Wallet.address
      = some "bc1evil0000000000000000000000000000000000" := by
  decide

/-- C8 amended witness: a concrete operation sequence keeps the key list
duplicate-free, and a concrete address-safe refresh step preserves the
sample wallet's address. -/
theorem registry_unique_ids_witness :
    (mapKeys (applyOps
      [.create sampleCreateEnv "u1" ethereumType "W1",
       .update sampleEthWallet 4000,
       .refresh failingBalanceEnv "ethereum_1000",
       .delete "ethereum_1000"])).Nodup ∧
    (((mapGet (applyOp sampleState (.refresh failingBalanceEnv "ethereum_1000"))
        "ethereum_1000").getD sampleEthWallet).address = sampleEthWallet.address) :=
  ⟨registry_unique_ids_and_safe_address_immutability.1 _,
   by
    have h := registry_unique_ids_and_safe_address_immutability.2 sampleState
      (.refresh failingBalanceEnv "ethereum_1000") "ethereum_1000" sampleEthWallet
      ((mapGet (applyOp sampleState (.refresh failingBalanceEnv "ethereum_1000"))
        "ethereum_1000").getD sampleEthWallet)
      (by decide) (by decide) (by decide)
    exact h⟩

theorem getWalletsByUserId_ne_nil (s : WalletState) (u : String) (w : Wallet)
    (hmem : w ∈ mapValues s) (hu : w.userId = u) :
    getWalletsByUserId s u ≠ [] := by
  unfold getWalletsByUserId
  intro hnil
  have hmem2 : w ∈ (mapValues s).filter fun x => x.userId = u :=
    List.mem_filter.mpr ⟨hmem, by simp [hu]⟩
  rw [hnil] at hmem2
  exact absurd hmem2 (List.not_mem_nil w)

theorem initializeDemoWallets_early_return (env : DemoEnv) (m : WalletState)
    (u : String) (h : getWalletsByUserId m u ≠ []) :
    initializeDemoWallets env m u = m := by
  unfold initializeDemoWallets
  rw [if_pos h]

theorem foldl_update_keeps_user (env : DemoEnv) (u : String) :
    ∀ (l : List Wallet) (s : WalletState),
      (∃ w ∈ mapValues s, w.userId = u) → (∀ w ∈ l, w.userId = u) →
      ∃ w ∈ mapValues (l.foldl
          (fun s w =>
            updateWallet s { w with balance := demoBalance env w.type } env.updNow) s),
        w.userId = u := by
  intro l
  induction l with
  | nil => intro s hs _; exact hs
  | cons w rest ih =>
    intro s hs hl
    apply ih
    · refine ⟨{ w with balance := demoBalance env w.type, updatedAt := env.updNow },
        mem_mapValues_mapSet s _ _, ?_⟩
      exact hl w (List.mem_cons_self w rest)
    · intro w' hw'
      exact hl w' (List.mem_cons_of_mem _ hw')

theorem getWalletsByUserId_after_fold (env : DemoEnv) (u : String) (s : WalletState)
    (hs : ∃ w ∈ mapValues s, w.userId = u) :
    getWalletsByUserId ((getWalletsByUserId s u).foldl
      (fun s w =>
        updateWallet s { w with balance := demoBalance env w.type } env.updNow) s) u
      ≠ [] := by
  obtain ⟨w, hw, hu⟩ := foldl_update_keeps_user env u (getWalletsByUserId s u) s hs
    (fun w hw => by
      have hw' : w ∈ (mapValues s).filter (fun x => x.userId = u) := hw
      simpa using List.of_mem_filter hw')
  exact getWalletsByUserId_ne_nil _ u w hw hu

theorem initializeDemoWallets_creates_wallets (env : DemoEnv) (m : WalletState)
    (u : String) (h0 : getWalletsByUserId m u = [])
    (h1 : env.ethEnv.encryptResult.isOk = true)
    (h2 : env.btcEnv.encryptResult.isOk = true)
    (h3 : env.solEnv.encryptResult.isOk = true) :
    getWalletsByUserId (initializeDemoWallets env m u) u ≠ [] := by
  obtain ⟨e1, he1⟩ : ∃ v, env.ethEnv.encryptResult = .ok v := by
    cases hc : env.ethEnv.encryptResult with
    | error e => rw [hc] at h1; simp [Except.isOk, Except.toBool] at h1
    | ok v => exact ⟨v, rfl⟩
  obtain ⟨e2, he2⟩ : ∃ v, env.btcEnv.encryptResult = .ok v := by
    cases hc : env.btcEnv.encryptResult with
    | error e => rw [hc] at h2; simp [Except.isOk, Except.toBool] at h2
    | ok v => exact ⟨v, rfl⟩
  obtain ⟨e3, he3⟩ : ∃ v, env.solEnv.encryptResult = .ok v := by
    cases hc : env.solEnv.encryptResult with
    | error e => rw [hc] at h3; simp [Except.isOk, Except.toBool] at h3
    | ok v => exact ⟨v, rfl⟩
  have hk1 : genKeyPair env.ethEnv ethereumType
      = some (env.ethEnv.ethAddress, env.ethEnv.ethPrivKey) := by
    unfold genKeyPair
    rw [if_pos rfl]
  have hk2 : genKeyPair env.btcEnv bitcoinType
      = some ("bc1" ++ env.btcEnv.btcEntropyHex.take 40, env.btcEnv.btcEntropyHex) := by
    unfold genKeyPair
    rw [if_neg (by decide), if_pos rfl]
  have hk3 : genKeyPair env.solEnv solanaType
      = some (env.solEnv.solAddress, env.solEnv.solSecretB64) := by
    unfold genKeyPair
    rw [if_neg (by decide), if_neg (by decide), if_pos rfl]
  unfold initializeDemoWallets
  rw [if_neg (not_not_intro h0)]
  simp only [createWallet_ok_eq env.ethEnv m u ethereumType "My ETH Wallet" _ _ e1 hk1 he1,
    createWallet_ok_eq _ _ u bitcoinType "My BTC Wallet" _ _ e2 hk2 he2,
    createWallet_ok_eq _ _ u solanaType "My SOL Wallet" _ _ e3 hk3 he3]
  exact getWalletsByUserId_after_fold env u _
    ⟨newWallet u solanaType "My SOL Wallet" env.solEnv.solAddress e3 env.solEnv.now,
     mem_mapValues_mapSet _ _ _, rfl⟩

/-- C10: `initializeDemoWallets` is idempotent at the public interface —
after one completed call (one whose three demo `createWallet` calls went
through the working encryption engine), a second call with any oracle
values returns early, because the user already owns at least one wallet,
and leaves the registry — ids, addresses and balances — unchanged. -/
theorem initializeDemoWallets_idempotent (envA envB : DemoEnv) (m : WalletState)
    (u : String)
    (h1 : envA.ethEnv.encryptResult.isOk = true)
    (h2 : envA.btcEnv.encryptResult.isOk = true)
    (h3 : envA.solEnv.encryptResult.isOk = true) :
    initializeDemoWallets envB (initializeDemoWallets envA m u) u =
      initializeDemoWallets envA m u := by
  by_cases h0 : getWalletsByUserId m u = []
  · exact initializeDemoWallets_early_return envB _ u
      (initializeDemoWallets_creates_wallets envA m u h0 h1 h2 h3)
  · rw [initializeDemoWallets_early_return envA m u h0,
      initializeDemoWallets_early_return envB m u h0]

/-- C10 witness: the repeat call after a successful demo initialization on
the empty registry changes nothing. -/
theorem initializeDemoWallets_idempotent_witness :
    initializeDemoWallets sampleDemoEnvB
        (initializeDemoWallets sampleDemoEnvA [] "u1") "u1" =
      initializeDemoWallets sampleDemoEnvA [] "u1" :=
  initializeDemoWallets_idempotent sampleDemoEnvA sampleDemoEnvB [] "u1"
    (by decide) (by decide) (by decide)

end CryptoWallet
